import Mathlib

/-!
Shallow embedding of `src/inference/dashboard.py` (OpenLCH live chart renderer).

Python floats are modelled as exact rationals (`ℚ`).  The mutable buffer
lists closed over by `update` become fields of an explicit `DashState`;
the matplotlib axes that `update` mutates become an explicit `View`.
Queue messages `(data_type, data)` become `Msg`, whose payload is a list
of dynamic Python values (`PyVal`): a tuple of floats and float sequences.
A Python exception raised while decoding one message (e.g. a tuple-unpack
arity error) is modelled by `processMsg` returning `none`; the
`try/except` around the queue drain corresponds to `Option.getD` in
`drainQueue`.
-/

namespace Dashboard

/-- Joint names, from the `joint_names` list in `plot_dashboard`. -/
def joint_names : List String :=
  ["left_hip_pitch", "left_hip_yaw", "left_hip_roll", "left_knee_pitch",
   "left_ankle_pitch", "right_hip_pitch", "right_hip_yaw", "right_hip_roll",
   "right_knee_pitch", "right_ankle_pitch"]

/-- `num_joints = len(joint_names)`. -/
def num_joints : Nat := joint_names.length

/-- `max_time_window = 1.0`: the 1-second retention window. -/
def max_time_window : ℚ := 1

/-- The value of the IEEE-754 double `np.pi` as an exact rational. -/
def npPi : ℚ := 884279719003555 / 281474976710656

/-- `rad2deg(rad) = rad * 180.0 / np.pi` (dashboard.py line 70). -/
def rad2deg (rad : ℚ) : ℚ := rad * 180 / npPi

/-- A dynamic Python value as it appears inside a queue payload:
either a float or a sequence of floats. -/
inductive PyVal where
  | num (q : ℚ)
  | vec (xs : List ℚ)
deriving DecidableEq

/-- A queue message `(data_type, data)`: a kind tag and a payload tuple. -/
structure Msg where
  kind : String
  payload : List PyVal
deriving DecidableEq

/-- The seven buffer lists closed over by `update` in `plot_dashboard`. -/
structure DashState where
  time_data : List ℚ
  freq_data : List ℚ
  position_time : List ℚ
  positions : List (List ℚ)
  desired_positions : List (List ℚ)
  velocity_time : List ℚ
  velocities : List (List ℚ)
deriving DecidableEq

/-- The initial state: all seven buffers start as empty lists. -/
def initState : DashState :=
  { time_data := [], freq_data := [], position_time := [], positions := [],
    desired_positions := [], velocity_time := [], velocities := [] }

/-- `prune_data(time_array, *data_arrays)` (dashboard.py lines 77-81):
while the time array is nonempty and its front is older than the window,
pop the front of the time array and of every data array.  `pop(0)` on a
nonempty list is `List.tail`; Python would raise `IndexError` on an empty
data array, which cannot happen while the arrays have equal lengths. -/
def prune_data {α : Type} (current_time : ℚ) :
    List ℚ → List (List α) → List ℚ × List (List α)
  | [], data_arrays => ([], data_arrays)
  | t :: ts, data_arrays =>
    if current_time - t > max_time_window then
      prune_data current_time ts (data_arrays.map List.tail)
    else (t :: ts, data_arrays)

/-- The three `prune_data` calls of `update` (dashboard.py lines 84-86). -/
def pruneAll (current_time : ℚ) (st : DashState) : DashState :=
  let pf := prune_data current_time st.time_data [st.freq_data]
  let pp := prune_data current_time st.position_time
      [st.positions, st.desired_positions]
  let pv := prune_data current_time st.velocity_time [st.velocities]
  { time_data := pf.1, freq_data := pf.2.getD 0 [],
    position_time := pp.1, positions := pp.2.getD 0 [],
    desired_positions := pp.2.getD 1 [],
    velocity_time := pv.1, velocities := pv.2.getD 0 [] }

/-- One iteration of the queue-drain loop body (dashboard.py lines 91-104):
dispatch on the kind tag, unpack the payload tuple, and append to the
target series.  `none` models a raised exception (wrong payload arity: the
tuple unpack `t, freq = data` fails before any append).  An unrecognized
kind falls through the `if/elif` chain with no action. -/
def processMsg (st : DashState) (m : Msg) : Option DashState :=
  if m.kind = "frequency" then
    match m.payload with
    | [.num t, .num freq] =>
        some { st with time_data := st.time_data ++ [t],
                       freq_data := st.freq_data ++ [freq] }
    | _ => none
  else if m.kind = "positions" then
    match m.payload with
    | [.num t, .vec pos, .vec desired_pos] =>
        some { st with position_time := st.position_time ++ [t],
                       positions := st.positions ++ [pos],
                       desired_positions := st.desired_positions ++ [desired_pos] }
    | _ => none
  else if m.kind = "velocities" then
    match m.payload with
    | [.num t, .vec vel] =>
        some { st with velocity_time := st.velocity_time ++ [t],
                       velocities := st.velocities ++ [vel] }
    | _ => none
  else some st

/-- The queue-drain loop of `update` (dashboard.py lines 89-106): process
each available message in turn; the `try/except` catches any exception
from one message (`Option.getD st`: the buffers keep the state they had)
and the loop continues with the next message. -/
def drainQueue (st : DashState) : List Msg → DashState
  | [] => st
  | m :: ms => drainQueue ((processMsg st m).getD st) ms

/-- `pos[i]` on a float sequence.  Python raises `IndexError` when the
index is out of range; for the 10-element joint vectors it never is. -/
def idx (xs : List ℚ) (i : Nat) : ℚ := xs.getD i 0

/-- `min(xs)` of a nonempty Python list (guards keep it nonempty). -/
def listMin : List ℚ → ℚ
  | [] => 0
  | x :: xs => xs.foldl min x

/-- `max(xs)` of a nonempty Python list (guards keep it nonempty). -/
def listMax : List ℚ → ℚ
  | [] => 0
  | x :: xs => xs.foldl max x

/-- `y_min_rad` of the positions chart (dashboard.py lines 130-140): the
minimum over all joints of `min(joint_actual_positions +
joint_desired_positions)`.  Python folds `min` starting from `inf`; since
`range(num_joints)` is nonempty this equals the minimum of the per-joint
minima. -/
def posYMinRad (ps ds : List (List ℚ)) : ℚ :=
  listMin ((List.range num_joints).map fun i =>
    listMin (ps.map (fun p => idx p i) ++ ds.map (fun d => idx d i)))

/-- `y_max_rad` of the positions chart (dashboard.py lines 131-140). -/
def posYMaxRad (ps ds : List (List ℚ)) : ℚ :=
  listMax ((List.range num_joints).map fun i =>
    listMax (ps.map (fun p => idx p i) ++ ds.map (fun d => idx d i)))

/-- `y_min_rad` of the velocities chart (dashboard.py lines 166-175). -/
def velYMinRad (vs : List (List ℚ)) : ℚ :=
  listMin ((List.range num_joints).map fun i =>
    listMin (vs.map (fun v => idx v i)))

/-- `y_max_rad` of the velocities chart (dashboard.py lines 167-175). -/
def velYMaxRad (vs : List (List ℚ)) : ℚ :=
  listMax ((List.range num_joints).map fun i =>
    listMax (vs.map (fun v => idx v i)))

/-- The limits of one matplotlib axes object. -/
structure Axes where
  xlim : ℚ × ℚ
  ylim : ℚ × ℚ
deriving DecidableEq

/-- The axes state the redraw blocks of `update` mutate: the frequency
axes, the position radian axes with its degree twin's y-limits, and the
velocity radian axes with its degree twin's y-limits. -/
structure View where
  ax_freq : Axes
  ax_pos : Axes
  pos_deg_ylim : ℚ × ℚ
  ax_vel : Axes
  vel_deg_ylim : ℚ × ℚ
deriving DecidableEq

/-- The frequency redraw block (dashboard.py lines 109-118): guarded by
`if time_data and freq_data`; sets `xlim = (now - window, now)` and the
fixed `ylim = (0, 60)`. -/
def redrawFreq (current_time : ℚ) (st : DashState) (v : View) : View :=
  if st.time_data ≠ [] ∧ st.freq_data ≠ [] then
    { v with ax_freq :=
        { xlim := (current_time - max_time_window, current_time),
          ylim := (0, 60) } }
  else v

/-- The positions redraw block (dashboard.py lines 121-154): guarded by
`if position_time and positions and desired_positions`; sets the radian
y-limits to the tight min/max and the degree twin's y-limits to
`rad2deg` of the same. -/
def redrawPos (current_time : ℚ) (st : DashState) (v : View) : View :=
  if st.position_time ≠ [] ∧ st.positions ≠ [] ∧ st.desired_positions ≠ [] then
    let y_min_rad := posYMinRad st.positions st.desired_positions
    let y_max_rad := posYMaxRad st.positions st.desired_positions
    { v with
        ax_pos := { xlim := (current_time - max_time_window, current_time),
                    ylim := (y_min_rad, y_max_rad) },
        pos_deg_ylim := (rad2deg y_min_rad, rad2deg y_max_rad) }
  else v

/-- The velocities redraw block (dashboard.py lines 157-187): guarded by
`if velocity_time and velocities`; analogous to the positions block. -/
def redrawVel (current_time : ℚ) (st : DashState) (v : View) : View :=
  if st.velocity_time ≠ [] ∧ st.velocities ≠ [] then
    let y_min_rad := velYMinRad st.velocities
    let y_max_rad := velYMaxRad st.velocities
    { v with
        ax_vel := { xlim := (current_time - max_time_window, current_time),
                    ylim := (y_min_rad, y_max_rad) },
        vel_deg_ylim := (rad2deg y_min_rad, rad2deg y_max_rad) }
  else v

/-- The three redraw blocks of `update`, in source order. -/
def redraw (current_time : ℚ) (st : DashState) (v : View) : View :=
  redrawVel current_time st (redrawPos current_time st (redrawFreq current_time st v))

/-- The buffer effect of one `update` tick (dashboard.py lines 73-106):
first the three `prune_data` calls, then the queue drain. -/
def updateData (current_time : ℚ) (msgs : List Msg) (st : DashState) : DashState :=
  drainQueue (pruneAll current_time st) msgs

/-- One full `update` tick (dashboard.py lines 73-196): prune the three
series, drain the queue, then run the three redraw blocks on the
resulting buffers. -/
def update (current_time : ℚ) (msgs : List Msg) (st : DashState) (v : View) :
    DashState × View :=
  (updateData current_time msgs st,
   redraw current_time (updateData current_time msgs st) v)

/-- A sequence of `update` ticks, each with its own clock reading and its
own batch of available queue messages, starting from a given state. -/
def runUpdates : List (ℚ × List Msg) → DashState → DashState
  | [], st => st
  | (now, msgs) :: rest, st => runUpdates rest (updateData now msgs st)

/-- Following the spec's stated loop order (tick → ingest → prune →
redraw), for comparison with `update`: the queue drain runs before the
prune step. -/
def specOrderUpdate (current_time : ℚ) (msgs : List Msg) (st : DashState)
    (v : View) : DashState × View :=
  (pruneAll current_time (drainQueue st msgs),
   redraw current_time (pruneAll current_time (drainQueue st msgs)) v)

/-- Step-indexed version of `prune_data`: at most `fuel` iterations of the
`while` loop are run; with the fuel exhausted the arrays are returned as
they stand. -/
def pruneDataFuel {α : Type} (current_time : ℚ) :
    Nat → List ℚ → List (List α) → List ℚ × List (List α)
  | 0, ts, data_arrays => (ts, data_arrays)
  | _ + 1, [], data_arrays => ([], data_arrays)
  | fuel + 1, t :: ts, data_arrays =>
    if current_time - t > max_time_window then
      pruneDataFuel current_time fuel ts (data_arrays.map List.tail)
    else (t :: ts, data_arrays)

/-- The parallel arrays of each series have equal lengths: time vs
frequency, position time vs actual vs desired, velocity time vs
velocities. -/
def EqLens (st : DashState) : Prop :=
  st.time_data.length = st.freq_data.length ∧
  st.position_time.length = st.positions.length ∧
  st.position_time.length = st.desired_positions.length ∧
  st.velocity_time.length = st.velocities.length

/-- A well-formed frequency message `("frequency", (t, hz))`. -/
def freqMsg (t hz : ℚ) : Msg := ⟨"frequency", [.num t, .num hz]⟩

/-- A well-formed positions message `("positions", (t, pos, desired_pos))`. -/
def posMsg (t : ℚ) (pos desired_pos : List ℚ) : Msg :=
  ⟨"positions", [.num t, .vec pos, .vec desired_pos]⟩

/-- A well-formed velocities message `("velocities", (t, vel))`. -/
def velMsg (t : ℚ) (vel : List ℚ) : Msg := ⟨"velocities", [.num t, .vec vel]⟩

/-- A malformed frequency message: payload of arity 1, so the tuple
unpack `t, freq = data` raises before any append. -/
def badFreqMsg : Msg := ⟨"frequency", [.num 0]⟩

/-- A view with all limits zeroed, standing for the freshly initialized
axes. -/
def initView : View :=
  ⟨⟨(0, 0), (0, 0)⟩, ⟨(0, 0), (0, 0)⟩, (0, 0), ⟨(0, 0), (0, 0)⟩, (0, 0)⟩

/-- A 10-float joint vector used as a concrete sample value. -/
def exVec : List ℚ := [1, 2, 3, 4, 5, 6, 7, 8, 9, 10]

/-- The state after ingesting one well-formed sample of each kind at
`t = 0` into the empty buffers. -/
def exStateFull : DashState :=
  drainQueue initState [freqMsg 0 50, posMsg 0 exVec exVec, velMsg 0 exVec]

/-- The state of the spec's worked example: frequency samples ingested at
`t = 0.0` and `t = 0.5`. -/
def exStateC1 : DashState := drainQueue initState [freqMsg 0 50, freqMsg 0.5 52]

/-- A state with an empty frequency buffer but nonempty position and
velocity buffers. -/
def exStatePV : DashState :=
  drainQueue initState [posMsg 0 exVec exVec, velMsg 0 exVec]

/-- A state where only the position buffers are nonempty: on such a tick
only the position chart redraws. -/
def exStatePosOnly : DashState := drainQueue initState [posMsg 0 exVec exVec]

/-- A state where only the velocity buffers are nonempty: on such a tick
only the velocity chart redraws. -/
def exStateVelOnly : DashState := drainQueue initState [velMsg 0 exVec]

end Dashboard

namespace Dashboard

/-- Each run of `prune_data` removes some count `k` of leading elements
from the time array and from every data array alike. -/
theorem prune_data_drop {α : Type} (now : ℚ) (ts : List ℚ) (das : List (List α)) :
    ∃ k, (prune_data now ts das).1 = ts.drop k ∧
      (prune_data now ts das).2 = das.map (fun d => d.drop k) := by
  induction ts generalizing das with
  | nil =>
    refine ⟨0, ?_, ?_⟩ <;> simp [prune_data]
  | cons t ts ih =>
    by_cases hc : now - t > max_time_window
    · obtain ⟨k, h1, h2⟩ := ih (das.map List.tail)
      refine ⟨k + 1, ?_, ?_⟩
      · simp only [prune_data, if_pos hc, h1, List.drop_succ_cons]
      · simp only [prune_data, if_pos hc, h2, List.map_map]
        refine List.map_congr_left fun d _ => ?_
        simp [Function.comp, List.drop_drop, ← List.drop_one, Nat.add_comm]
    · refine ⟨0, ?_, ?_⟩ <;> simp [prune_data, if_neg hc]

/-- After `prune_data`, when the time array was sorted, every retained
timestamp is within the window of the current time. -/
theorem prune_data_window {α : Type} (now : ℚ) (ts : List ℚ) (das : List (List α))
    (h : ts.Sorted (· ≤ ·)) :
    ∀ t ∈ (prune_data now ts das).1, now - t ≤ max_time_window := by
  induction ts generalizing das with
  | nil => simp [prune_data]
  | cons t ts ih =>
    by_cases hc : now - t > max_time_window
    · simpa only [prune_data, if_pos hc] using
        ih (das.map List.tail) (List.sorted_cons.mp h).2
    · simp only [prune_data, if_neg hc]
      intro u hu
      rcases List.mem_cons.mp hu with rfl | hu
      · exact not_lt.mp hc
      · have htu : t ≤ u := (List.sorted_cons.mp h).1 u hu
        have : now - u ≤ now - t := by linarith
        exact this.trans (not_lt.mp hc)

/-- `prune_data` keeps the time array sorted. -/
theorem prune_data_sorted {α : Type} (now : ℚ) (ts : List ℚ) (das : List (List α))
    (h : ts.Sorted (· ≤ ·)) : (prune_data now ts das).1.Sorted (· ≤ ·) := by
  obtain ⟨k, h1, -⟩ := prune_data_drop now ts das
  rw [h1]
  exact List.Pairwise.sublist (List.drop_sublist k ts) h

/-- Appending one timestamp no smaller than every buffered one keeps a
time array sorted. -/
theorem sorted_append_one (l : List ℚ) (t : ℚ) (hl : l.Sorted (· ≤ ·))
    (h : ∀ u ∈ l, u ≤ t) : (l ++ [t]).Sorted (· ≤ ·) := by
  rw [List.Sorted, List.pairwise_append]
  exact ⟨hl, List.pairwise_singleton _ _, by simpa using h⟩

/-- Processing one message either raises (`none`), ignores an
unrecognized kind (`some st`), or appends exactly one element to each
array of exactly one series. -/
theorem processMsg_cases (st : DashState) (m : Msg) :
    processMsg st m = none ∨ processMsg st m = some st ∨
    (∃ t f, processMsg st m =
      some { st with time_data := st.time_data ++ [t],
                     freq_data := st.freq_data ++ [f] }) ∨
    (∃ t p d, processMsg st m =
      some { st with position_time := st.position_time ++ [t],
                     positions := st.positions ++ [p],
                     desired_positions := st.desired_positions ++ [d] }) ∨
    (∃ t vl, processMsg st m =
      some { st with velocity_time := st.velocity_time ++ [t],
                     velocities := st.velocities ++ [vl] }) := by
  unfold processMsg
  split_ifs with h1 h2 h3
  · split
    all_goals first
      | exact Or.inl rfl
      | exact Or.inr (Or.inr (Or.inl ⟨_, _, rfl⟩))
  · split
    all_goals first
      | exact Or.inl rfl
      | exact Or.inr (Or.inr (Or.inr (Or.inl ⟨_, _, _, rfl⟩)))
  · split
    all_goals first
      | exact Or.inl rfl
      | exact Or.inr (Or.inr (Or.inr (Or.inr ⟨_, _, rfl⟩)))
  · exact Or.inr (Or.inl rfl)

/-- Draining a concatenation drains the first batch, then the second. -/
theorem drainQueue_append (st : DashState) (xs ys : List Msg) :
    drainQueue st (xs ++ ys) = drainQueue (drainQueue st xs) ys := by
  induction xs generalizing st with
  | nil => rfl
  | cons m ms ih => simpa [drainQueue] using ih ((processMsg st m).getD st)

end Dashboard

namespace Dashboard

/-- The empty initial buffers trivially have equal parallel lengths. -/
theorem eqLens_initState : EqLens initState := by
  simp [EqLens, initState]

/-- The three `prune_data` calls of a tick preserve the equal-lengths
invariant: the popped counts match between a time array and its data
arrays. -/
theorem eqLens_pruneAll (now : ℚ) (st : DashState) (h : EqLens st) :
    EqLens (pruneAll now st) := by
  obtain ⟨k1, e1, e2⟩ := prune_data_drop now st.time_data [st.freq_data]
  obtain ⟨k2, e3, e4⟩ :=
    prune_data_drop now st.position_time [st.positions, st.desired_positions]
  obtain ⟨k3, e5, e6⟩ := prune_data_drop now st.velocity_time [st.velocities]
  obtain ⟨l1, l2, l3, l4⟩ := h
  refine ⟨?_, ?_, ?_, ?_⟩ <;>
    simp [pruneAll, e1, e2, e3, e4, e5, e6, List.length_drop] <;> omega

/-- One drain-loop iteration preserves the equal-lengths invariant:
either nothing changes or one element is appended to every array of one
series. -/
theorem eqLens_step (st : DashState) (m : Msg) (h : EqLens st) :
    EqLens ((processMsg st m).getD st) := by
  rcases processMsg_cases st m with hc | hc | ⟨t, f, hc⟩ | ⟨t, p, d, hc⟩ | ⟨t, vl, hc⟩ <;>
    obtain ⟨l1, l2, l3, l4⟩ := h <;>
    simp [hc, EqLens, List.length_append, l1, l2, l3, l4] <;> omega

/-- The whole queue drain preserves the equal-lengths invariant. -/
theorem eqLens_drainQueue (msgs : List Msg) :
    ∀ st : DashState, EqLens st → EqLens (drainQueue st msgs) := by
  induction msgs with
  | nil => exact fun st h => h
  | cons m ms ih => exact fun st h => ih _ (eqLens_step st m h)

/-- One full tick preserves the equal-lengths invariant. -/
theorem eqLens_updateData (now : ℚ) (msgs : List Msg) (st : DashState)
    (h : EqLens st) : EqLens (updateData now msgs st) :=
  eqLens_drainQueue msgs _ (eqLens_pruneAll now st h)

/-- Any sequence of ticks preserves the equal-lengths invariant. -/
theorem eqLens_runUpdates (ticks : List (ℚ × List Msg)) :
    ∀ st : DashState, EqLens st → EqLens (runUpdates ticks st) := by
  induction ticks with
  | nil => exact fun st h => h
  | cons tk rest ih =>
    exact fun st h => ih _ (eqLens_updateData tk.1 tk.2 st h)

/-- The frequency redraw block touches only the frequency axes. -/
theorem redrawFreq_rest (now : ℚ) (st : DashState) (v : View) :
    (redrawFreq now st v).ax_pos = v.ax_pos ∧
    (redrawFreq now st v).pos_deg_ylim = v.pos_deg_ylim ∧
    (redrawFreq now st v).ax_vel = v.ax_vel ∧
    (redrawFreq now st v).vel_deg_ylim = v.vel_deg_ylim := by
  unfold redrawFreq; split <;> exact ⟨rfl, rfl, rfl, rfl⟩

/-- The positions redraw block touches only the position axes pair. -/
theorem redrawPos_rest (now : ℚ) (st : DashState) (v : View) :
    (redrawPos now st v).ax_freq = v.ax_freq ∧
    (redrawPos now st v).ax_vel = v.ax_vel ∧
    (redrawPos now st v).vel_deg_ylim = v.vel_deg_ylim := by
  unfold redrawPos; split <;> exact ⟨rfl, rfl, rfl⟩

/-- The velocities redraw block touches only the velocity axes pair. -/
theorem redrawVel_rest (now : ℚ) (st : DashState) (v : View) :
    (redrawVel now st v).ax_freq = v.ax_freq ∧
    (redrawVel now st v).ax_pos = v.ax_pos ∧
    (redrawVel now st v).pos_deg_ylim = v.pos_deg_ylim := by
  unfold redrawVel; split <;> exact ⟨rfl, rfl, rfl⟩

/-- With an empty frequency buffer the frequency block is a no-op. -/
theorem redrawFreq_empty (now : ℚ) (st : DashState) (v : View)
    (h : st.time_data = [] ∨ st.freq_data = []) : redrawFreq now st v = v := by
  unfold redrawFreq
  rw [if_neg]
  tauto

/-- With an empty position buffer the positions block is a no-op. -/
theorem redrawPos_empty (now : ℚ) (st : DashState) (v : View)
    (h : st.position_time = [] ∨ st.positions = [] ∨ st.desired_positions = []) :
    redrawPos now st v = v := by
  unfold redrawPos
  rw [if_neg]
  tauto

/-- With an empty velocity buffer the velocities block is a no-op. -/
theorem redrawVel_empty (now : ℚ) (st : DashState) (v : View)
    (h : st.velocity_time = [] ∨ st.velocities = []) : redrawVel now st v = v := by
  unfold redrawVel
  rw [if_neg]
  tauto

/-- With a nonempty frequency buffer the frequency block sets the fixed
limits. -/
theorem redrawFreq_drawn (now : ℚ) (st : DashState) (v : View)
    (h1 : st.time_data ≠ []) (h2 : st.freq_data ≠ []) :
    (redrawFreq now st v).ax_freq =
      ⟨(now - max_time_window, now), (0, 60)⟩ := by
  unfold redrawFreq
  rw [if_pos ⟨h1, h2⟩]

/-- With a nonempty position buffer the positions block sets the computed
limits on both axes. -/
theorem redrawPos_drawn (now : ℚ) (st : DashState) (v : View)
    (h1 : st.position_time ≠ []) (h2 : st.positions ≠ [])
    (h3 : st.desired_positions ≠ []) :
    (redrawPos now st v).ax_pos =
      ⟨(now - max_time_window, now),
       (posYMinRad st.positions st.desired_positions,
        posYMaxRad st.positions st.desired_positions)⟩ ∧
    (redrawPos now st v).pos_deg_ylim =
      (rad2deg (posYMinRad st.positions st.desired_positions),
       rad2deg (posYMaxRad st.positions st.desired_positions)) := by
  unfold redrawPos
  rw [if_pos ⟨h1, h2, h3⟩]
  exact ⟨rfl, rfl⟩

/-- With a nonempty velocity buffer the velocities block sets the computed
limits on both axes. -/
theorem redrawVel_drawn (now : ℚ) (st : DashState) (v : View)
    (h1 : st.velocity_time ≠ []) (h2 : st.velocities ≠ []) :
    (redrawVel now st v).ax_vel =
      ⟨(now - max_time_window, now),
       (velYMinRad st.velocities, velYMaxRad st.velocities)⟩ ∧
    (redrawVel now st v).vel_deg_ylim =
      (rad2deg (velYMinRad st.velocities), rad2deg (velYMaxRad st.velocities)) := by
  unfold redrawVel
  rw [if_pos ⟨h1, h2⟩]
  exact ⟨rfl, rfl⟩

/-- `rad2deg` is multiplication by the constant factor `180 / np.pi`. -/
theorem rad2deg_eq_mul (r : ℚ) : rad2deg r = r * (180 / npPi) := by
  unfold rad2deg
  rw [mul_div_assoc]

end Dashboard

namespace Dashboard

/-- C1: for every series of ingested samples with non-decreasing
timestamps, after the prune step runs at time `now` every retained
timestamp `t` satisfies `now - t ≤ 1.0`; in particular, ingesting
frequency samples at `t = 0.0` and `t = 0.5` and pruning at `now = 1.6`
leaves the frequency series empty. -/
theorem C1_prune_window {α : Type} (now : ℚ) (ts : List ℚ) (das : List (List α))
    (h : ts.Sorted (· ≤ ·)) :
    (∀ t ∈ (prune_data now ts das).1, now - t ≤ max_time_window) ∧
    (pruneAll 1.6 exStateC1).time_data = [] ∧
    (pruneAll 1.6 exStateC1).freq_data = [] := by
  refine ⟨prune_data_window now ts das h, ?_, ?_⟩ <;>
    norm_num [exStateC1, drainQueue, processMsg, freqMsg, initState, pruneAll,
      prune_data, max_time_window]

/-- C1 witness: the sorted two-sample series of the worked example. -/
theorem C1_prune_window_witness :
    ([0, 0.5] : List ℚ).Sorted (· ≤ ·) ∧
    ((∀ t ∈ (prune_data (α := ℚ) 1.6 [0, 0.5] [[50, 52]]).1,
        (1.6 : ℚ) - t ≤ max_time_window) ∧
      (pruneAll 1.6 exStateC1).time_data = [] ∧
      (pruneAll 1.6 exStateC1).freq_data = []) := by
  have hs : ([0, 0.5] : List ℚ).Sorted (· ≤ ·) := by
    norm_num [List.sorted_cons]
  exact ⟨hs, C1_prune_window 1.6 [0, 0.5] [[50, 52]] hs⟩

/-- C2 counterexample: with the single message `("frequency", (0, 50))`
arriving at the tick `now = 2` on empty buffers, the code keeps the stale
sample (`time_data = [0]`) because the drain runs after the prune; under
the claimed ingest-then-prune order the sample would have been evicted. -/
theorem C2_counterexample :
    (update 2 [freqMsg 0 50] initState initView).1.time_data = [0] ∧
    (specOrderUpdate 2 [freqMsg 0 50] initState initView).1.time_data = [] ∧
    (update 2 [freqMsg 0 50] initState initView).1 ≠
      (specOrderUpdate 2 [freqMsg 0 50] initState initView).1 := by
  norm_num [update, updateData, specOrderUpdate, drainQueue, processMsg,
    freqMsg, initState, pruneAll, prune_data, max_time_window]

/-- C2 (amended): on every tick the renderer executes its single
steady-state loop in the order tick → prune → ingest → redraw: the prune
step reads the buffers before the queue drain appends to them, and every
chart is redrawn from the buffers left by the drain. -/
theorem C2_loop_order (now : ℚ) (msgs : List Msg) (st : DashState) (v : View) :
    (update now msgs st v).1 = drainQueue (pruneAll now st) msgs ∧
    (update now msgs st v).2 = redraw now (drainQueue (pruneAll now st) msgs) v :=
  ⟨rfl, rfl⟩

/-- C3 counterexample: the claim quantifies over every message sequence,
but ingesting `("frequency", (1, 50))` then `("frequency", (0.5, 52))`
leaves the frequency timestamps `[1, 0.5]`, which are not non-decreasing:
the append path keeps the invariant only for monotone inputs. -/
theorem C3_counterexample :
    ¬ ((drainQueue initState [freqMsg 1 50, freqMsg 0.5 52]).time_data.Sorted
        (· ≤ ·)) := by
  norm_num [drainQueue, processMsg, freqMsg, initState, List.sorted_cons]

/-- C3 (amended): for every RollingSeries whose ingested timestamps are
non-decreasing (each new sample no older than every buffered one), the
invariant holds and is preserved by both mutation paths: front-eviction
by `prune_data` keeps the timestamps of any series sorted and leaves only
timestamps within the 1-second window, and the append performed on ingest
keeps the timestamps sorted for each of the frequency, positions and
velocities series. -/
theorem C3_invariant {α : Type} (now t f : ℚ) (p d vl : List ℚ) (ts : List ℚ)
    (das : List (List α)) (st : DashState)
    (hts : ts.Sorted (· ≤ ·))
    (hft : st.time_data.Sorted (· ≤ ·)) (hfm : ∀ u ∈ st.time_data, u ≤ t)
    (hpt : st.position_time.Sorted (· ≤ ·)) (hpm : ∀ u ∈ st.position_time, u ≤ t)
    (hvt : st.velocity_time.Sorted (· ≤ ·)) (hvm : ∀ u ∈ st.velocity_time, u ≤ t) :
    ((prune_data now ts das).1.Sorted (· ≤ ·) ∧
      ∀ u ∈ (prune_data now ts das).1, now - u ≤ max_time_window) ∧
    (drainQueue st [freqMsg t f]).time_data.Sorted (· ≤ ·) ∧
    (drainQueue st [posMsg t p d]).position_time.Sorted (· ≤ ·) ∧
    (drainQueue st [velMsg t vl]).velocity_time.Sorted (· ≤ ·) := by
  refine ⟨⟨prune_data_sorted now ts das hts, prune_data_window now ts das hts⟩,
    ?_, ?_, ?_⟩
  · show (st.time_data ++ [t]).Sorted (· ≤ ·)
    exact sorted_append_one _ t hft hfm
  · show (st.position_time ++ [t]).Sorted (· ≤ ·)
    exact sorted_append_one _ t hpt hpm
  · show (st.velocity_time ++ [t]).Sorted (· ≤ ·)
    exact sorted_append_one _ t hvt hvm

/-- C3 witness: pruning the example series at `now = 1.6` and appending a
sample of each kind at `t = 1` to the example state. -/
theorem C3_invariant_witness :
    (([0, 0.5] : List ℚ).Sorted (· ≤ ·) ∧
      exStateC1.time_data.Sorted (· ≤ ·) ∧
      (∀ u ∈ exStateC1.time_data, u ≤ (1 : ℚ)) ∧
      exStateC1.position_time.Sorted (· ≤ ·) ∧
      (∀ u ∈ exStateC1.position_time, u ≤ (1 : ℚ)) ∧
      exStateC1.velocity_time.Sorted (· ≤ ·) ∧
      (∀ u ∈ exStateC1.velocity_time, u ≤ (1 : ℚ))) ∧
    (((prune_data (α := ℚ) 1.6 [0, 0.5] [[50, 52]]).1.Sorted (· ≤ ·) ∧
        ∀ u ∈ (prune_data (α := ℚ) 1.6 [0, 0.5] [[50, 52]]).1,
          (1.6 : ℚ) - u ≤ max_time_window) ∧
      (drainQueue exStateC1 [freqMsg 1 50]).time_data.Sorted (· ≤ ·) ∧
      (drainQueue exStateC1 [posMsg 1 exVec exVec]).position_time.Sorted (· ≤ ·) ∧
      (drainQueue exStateC1 [velMsg 1 exVec]).velocity_time.Sorted (· ≤ ·)) := by
  have h1 : ([0, 0.5] : List ℚ).Sorted (· ≤ ·) := by
    norm_num [List.sorted_cons]
  have h2 : exStateC1.time_data.Sorted (· ≤ ·) := by
    norm_num [exStateC1, drainQueue, processMsg, freqMsg, initState,
      List.sorted_cons]
  have h3 : ∀ u ∈ exStateC1.time_data, u ≤ (1 : ℚ) := by
    norm_num [exStateC1, drainQueue, processMsg, freqMsg, initState]
  have h4 : exStateC1.position_time.Sorted (· ≤ ·) := by
    simp [exStateC1, drainQueue, processMsg, freqMsg, initState]
  have h5 : ∀ u ∈ exStateC1.position_time, u ≤ (1 : ℚ) := by
    simp [exStateC1, drainQueue, processMsg, freqMsg, initState]
  have h6 : exStateC1.velocity_time.Sorted (· ≤ ·) := by
    simp [exStateC1, drainQueue, processMsg, freqMsg, initState]
  have h7 : ∀ u ∈ exStateC1.velocity_time, u ≤ (1 : ℚ) := by
    simp [exStateC1, drainQueue, processMsg, freqMsg, initState]
  exact ⟨⟨h1, h2, h3, h4, h5, h6, h7⟩,
    C3_invariant 1.6 1 50 exVec exVec exVec [0, 0.5] [[50, 52]] exStateC1
      h1 h2 h3 h4 h5 h6 h7⟩

/-- C4: a queue entry whose processing raises is caught and skipped:
draining a batch with such an entry in the middle equals draining the
batch without it, so earlier appends are kept and the remaining messages
of the same tick are still drained. -/
theorem C4_drain_continues (st : DashState) (pre post : List Msg) (bad : Msg)
    (h : ∀ s : DashState, processMsg s bad = none) :
    drainQueue st (pre ++ bad :: post) = drainQueue st (pre ++ post) := by
  rw [drainQueue_append, drainQueue_append]
  simp [drainQueue, h]

/-- C4 witness: an arity-1 frequency payload between two good samples. -/
theorem C4_drain_continues_witness :
    processMsg initState badFreqMsg = none ∧
    drainQueue initState ([freqMsg 0 50] ++ badFreqMsg :: [freqMsg 0.5 52]) =
      drainQueue initState ([freqMsg 0 50] ++ [freqMsg 0.5 52]) :=
  ⟨rfl, C4_drain_continues initState [freqMsg 0 50] [freqMsg 0.5 52] badFreqMsg
    fun _ => rfl⟩

/-- C5: a message whose kind tag is none of "frequency", "positions",
"velocities" is silently ignored: processing it raises nothing and
returns the buffers exactly as they were. -/
theorem C5_unknown_kind (st : DashState) (m : Msg)
    (h1 : m.kind ≠ "frequency") (h2 : m.kind ≠ "positions")
    (h3 : m.kind ≠ "velocities") :
    processMsg st m = some st := by
  unfold processMsg
  rw [if_neg h1, if_neg h2, if_neg h3]

/-- C5 witness: an unrecognized kind tag on the example state. -/
theorem C5_unknown_kind_witness :
    ((Msg.mk "bogus" []).kind ≠ "frequency" ∧
      (Msg.mk "bogus" []).kind ≠ "positions" ∧
      (Msg.mk "bogus" []).kind ≠ "velocities") ∧
    processMsg exStateC1 (Msg.mk "bogus" []) = some exStateC1 :=
  ⟨⟨by decide, by decide, by decide⟩,
   C5_unknown_kind exStateC1 (Msg.mk "bogus" []) (by decide) (by decide)
     (by decide)⟩

end Dashboard

namespace Dashboard

/-- C6: at every redraw of the position chart and of the velocity chart,
the degree-axis y-range equals the radian-axis y-range multiplied by
180/π: both degree limits are the corresponding radian limits times the
conversion factor. -/
theorem C6_deg_axis (now : ℚ) (st : DashState) (v : View) :
    (st.position_time ≠ [] → st.positions ≠ [] → st.desired_positions ≠ [] →
      (redraw now st v).pos_deg_ylim =
        ((redraw now st v).ax_pos.ylim.1 * (180 / npPi),
         (redraw now st v).ax_pos.ylim.2 * (180 / npPi))) ∧
    (st.velocity_time ≠ [] → st.velocities ≠ [] →
      (redraw now st v).vel_deg_ylim =
        ((redraw now st v).ax_vel.ylim.1 * (180 / npPi),
         (redraw now st v).ax_vel.ylim.2 * (180 / npPi))) := by
  obtain ⟨-, hvpos, hvdeg⟩ :=
    redrawVel_rest now st (redrawPos now st (redrawFreq now st v))
  unfold redraw
  refine ⟨fun hp1 hp2 hp3 => ?_, fun hv1 hv2 => ?_⟩
  · obtain ⟨hpa, hpd⟩ := redrawPos_drawn now st (redrawFreq now st v) hp1 hp2 hp3
    rw [hvdeg, hvpos, hpd, hpa]
    simp [rad2deg_eq_mul]
  · obtain ⟨hva, hvd⟩ :=
      redrawVel_drawn now st (redrawPos now st (redrawFreq now st v)) hv1 hv2
    rw [hvd, hva]
    simp [rad2deg_eq_mul]

/-- C6 witness: a tick where only the position chart redraws and a tick
where only the velocity chart redraws, both at `now = 1`. -/
theorem C6_deg_axis_witness :
    (exStatePosOnly.position_time ≠ [] ∧ exStatePosOnly.positions ≠ [] ∧
      exStatePosOnly.desired_positions ≠ [] ∧ exStatePosOnly.velocities = [] ∧
      (redraw 1 exStatePosOnly initView).pos_deg_ylim =
        ((redraw 1 exStatePosOnly initView).ax_pos.ylim.1 * (180 / npPi),
         (redraw 1 exStatePosOnly initView).ax_pos.ylim.2 * (180 / npPi))) ∧
    (exStateVelOnly.velocity_time ≠ [] ∧ exStateVelOnly.velocities ≠ [] ∧
      exStateVelOnly.positions = [] ∧
      (redraw 1 exStateVelOnly initView).vel_deg_ylim =
        ((redraw 1 exStateVelOnly initView).ax_vel.ylim.1 * (180 / npPi),
         (redraw 1 exStateVelOnly initView).ax_vel.ylim.2 * (180 / npPi))) := by
  have hp1 : exStatePosOnly.position_time ≠ [] := by
    simp [exStatePosOnly, drainQueue, processMsg, posMsg, initState]
  have hp2 : exStatePosOnly.positions ≠ [] := by
    simp [exStatePosOnly, drainQueue, processMsg, posMsg, initState]
  have hp3 : exStatePosOnly.desired_positions ≠ [] := by
    simp [exStatePosOnly, drainQueue, processMsg, posMsg, initState]
  have hv1 : exStateVelOnly.velocity_time ≠ [] := by
    simp [exStateVelOnly, drainQueue, processMsg, velMsg, initState]
  have hv2 : exStateVelOnly.velocities ≠ [] := by
    simp [exStateVelOnly, drainQueue, processMsg, velMsg, initState]
  exact ⟨⟨hp1, hp2, hp3, rfl,
      (C6_deg_axis 1 exStatePosOnly initView).1 hp1 hp2 hp3⟩,
    ⟨hv1, hv2, rfl, (C6_deg_axis 1 exStateVelOnly initView).2 hv1 hv2⟩⟩

/-- C7: on every tick, a chart whose rolling buffer is empty is skipped:
its axes keep their previous limits, no plot is drawn for it; and every
chart whose buffers are nonempty is still redrawn, its axes set to the
freshly computed limits. -/
theorem C7_skip_empty (now : ℚ) (st : DashState) (v : View) :
    ((st.time_data = [] ∨ st.freq_data = []) →
      (redraw now st v).ax_freq = v.ax_freq) ∧
    ((st.position_time = [] ∨ st.positions = [] ∨ st.desired_positions = []) →
      (redraw now st v).ax_pos = v.ax_pos ∧
      (redraw now st v).pos_deg_ylim = v.pos_deg_ylim) ∧
    ((st.velocity_time = [] ∨ st.velocities = []) →
      (redraw now st v).ax_vel = v.ax_vel ∧
      (redraw now st v).vel_deg_ylim = v.vel_deg_ylim) ∧
    (st.time_data ≠ [] → st.freq_data ≠ [] →
      (redraw now st v).ax_freq = ⟨(now - max_time_window, now), (0, 60)⟩) ∧
    (st.position_time ≠ [] → st.positions ≠ [] → st.desired_positions ≠ [] →
      (redraw now st v).ax_pos =
        ⟨(now - max_time_window, now),
         (posYMinRad st.positions st.desired_positions,
          posYMaxRad st.positions st.desired_positions)⟩) ∧
    (st.velocity_time ≠ [] → st.velocities ≠ [] →
      (redraw now st v).ax_vel =
        ⟨(now - max_time_window, now),
         (velYMinRad st.velocities, velYMaxRad st.velocities)⟩) := by
  unfold redraw
  refine ⟨fun h => ?_, fun h => ?_, fun h => ?_,
    fun h1 h2 => ?_, fun h1 h2 h3 => ?_, fun h1 h2 => ?_⟩
  · rw [(redrawVel_rest now st _).1, (redrawPos_rest now st _).1,
      redrawFreq_empty now st v h]
  · rw [(redrawVel_rest now st _).2.1, (redrawVel_rest now st _).2.2,
      redrawPos_empty now st _ h, (redrawFreq_rest now st v).1,
      (redrawFreq_rest now st v).2.1]
    exact ⟨rfl, rfl⟩
  · rw [redrawVel_empty now st _ h, (redrawPos_rest now st _).2.1,
      (redrawPos_rest now st _).2.2, (redrawFreq_rest now st v).2.2.1,
      (redrawFreq_rest now st v).2.2.2]
    exact ⟨rfl, rfl⟩
  · rw [(redrawVel_rest now st _).1, (redrawPos_rest now st _).1,
      redrawFreq_drawn now st v h1 h2]
  · rw [(redrawVel_rest now st _).2.1,
      (redrawPos_drawn now st _ h1 h2 h3).1]
  · exact (redrawVel_drawn now st _ h1 h2).1

/-- C7 witness: with the frequency buffer empty and the position and
velocity buffers filled, the frequency axes keep their initial limits
while the other two charts are redrawn. -/
theorem C7_skip_empty_witness :
    (redraw 1 exStatePV initView).ax_freq = initView.ax_freq ∧
    (redraw 1 exStatePV initView).ax_pos =
      ⟨(1 - max_time_window, 1),
       (posYMinRad exStatePV.positions exStatePV.desired_positions,
        posYMaxRad exStatePV.positions exStatePV.desired_positions)⟩ ∧
    (redraw 1 exStatePV initView).ax_vel =
      ⟨(1 - max_time_window, 1),
       (velYMinRad exStatePV.velocities, velYMaxRad exStatePV.velocities)⟩ := by
  have h := C7_skip_empty 1 exStatePV initView
  refine ⟨h.1 (Or.inl rfl), h.2.2.2.2.1 ?_ ?_ ?_, h.2.2.2.2.2 ?_ ?_⟩ <;>
    simp [exStatePV, drainQueue, processMsg, posMsg, velMsg, initState]

end Dashboard

namespace Dashboard

/-- C8: the parallel arrays of each series have equal lengths after every
update tick: the invariant holds of every state reached from the empty
initial buffers by any sequence of ticks, and both the prune step and the
queue drain preserve it from any state satisfying it. -/
theorem C8_parallel_lengths (now : ℚ) (msgs : List Msg) (st : DashState)
    (ticks : List (ℚ × List Msg)) (h : EqLens st) :
    EqLens (pruneAll now st) ∧ EqLens (drainQueue st msgs) ∧
    EqLens (runUpdates ticks initState) :=
  ⟨eqLens_pruneAll now st h, eqLens_drainQueue msgs st h,
   eqLens_runUpdates ticks initState eqLens_initState⟩

/-- C8 witness: one tick with one sample of each kind plus a malformed
payload, pruned and run from the initial state. -/
theorem C8_parallel_lengths_witness :
    EqLens exStateC1 ∧
    (EqLens (pruneAll 1.6 exStateC1) ∧
      EqLens (drainQueue exStateC1 [posMsg 1 exVec exVec, badFreqMsg, velMsg 1 exVec]) ∧
      EqLens (runUpdates [(1.6, [posMsg 1 exVec exVec, badFreqMsg, velMsg 1 exVec])]
        initState)) := by
  have h : EqLens exStateC1 := by
    simp [EqLens, exStateC1, drainQueue, processMsg, freqMsg, initState]
  exact ⟨h, C8_parallel_lengths 1.6
    [posMsg 1 exVec exVec, badFreqMsg, velMsg 1 exVec] exStateC1
    [(1.6, [posMsg 1 exVec exVec, badFreqMsg, velMsg 1 exVec])] h⟩

/-- C9: ingestion of one message is atomic: the payload is unpacked
before any append, so the buffers after the drain step for that message
are either exactly the previous buffers (an unpack failure, caught, or an
unrecognized kind) or the previous buffers with exactly one element
appended to every array of the one target series. -/
theorem C9_atomic_ingest (st : DashState) (m : Msg) :
    (processMsg st m).getD st = st ∨
    (∃ t f, (processMsg st m).getD st =
      { st with time_data := st.time_data ++ [t],
                freq_data := st.freq_data ++ [f] }) ∨
    (∃ t p d, (processMsg st m).getD st =
      { st with position_time := st.position_time ++ [t],
                positions := st.positions ++ [p],
                desired_positions := st.desired_positions ++ [d] }) ∨
    (∃ t vl, (processMsg st m).getD st =
      { st with velocity_time := st.velocity_time ++ [t],
                velocities := st.velocities ++ [vl] }) := by
  rcases processMsg_cases st m with hc | hc | ⟨t, f, hc⟩ | ⟨t, p, d, hc⟩ | ⟨t, vl, hc⟩
  · exact Or.inl (by simp [hc])
  · exact Or.inl (by simp [hc])
  · exact Or.inr (Or.inl ⟨t, f, by simp [hc]⟩)
  · exact Or.inr (Or.inr (Or.inl ⟨t, p, d, by simp [hc]⟩))
  · exact Or.inr (Or.inr (Or.inr ⟨t, vl, by simp [hc]⟩))

/-- C10: `prune_data` terminates for every finite buffer: the loop runs
at most `len(time_array)` iterations — with that much fuel the
step-indexed loop already computes the full `prune_data`, and the
retained time array is never longer than the input. -/
theorem C10_prune_terminates {α : Type} (now : ℚ) (n : Nat) (ts : List ℚ)
    (das : List (List α)) (h : ts.length ≤ n) :
    pruneDataFuel now n ts das = prune_data now ts das ∧
    (prune_data now ts das).1.length ≤ ts.length := by
  induction ts generalizing n das with
  | nil =>
    cases n <;> simp [pruneDataFuel, prune_data]
  | cons t ts ih =>
    cases n with
    | zero => simp at h
    | succ m =>
      by_cases hc : now - t > max_time_window
      · obtain ⟨e1, e2⟩ := ih m (das.map List.tail) (by simpa using h)
        refine ⟨?_, ?_⟩
        · simp only [pruneDataFuel, prune_data, if_pos hc, e1]
        · simp only [prune_data, if_pos hc]
          exact e2.trans (Nat.le_succ _)
      · refine ⟨?_, ?_⟩
        · simp only [pruneDataFuel, prune_data, if_neg hc]
        · simp only [prune_data, if_neg hc, List.length_cons, Nat.le_refl]

/-- C10 witness: two samples pruned at `now = 2` with fuel equal to the
buffer length. -/
theorem C10_prune_terminates_witness :
    ([(0 : ℚ), 0.5] : List ℚ).length ≤ 2 ∧
    (pruneDataFuel (α := ℚ) 2 2 [0, 0.5] [[50, 52]] =
        prune_data 2 [0, 0.5] [[50, 52]] ∧
      (prune_data (α := ℚ) 2 [0, 0.5] [[50, 52]]).1.length ≤
        ([(0 : ℚ), 0.5] : List ℚ).length) :=
  ⟨by decide, C10_prune_terminates 2 2 [0, 0.5] [[50, 52]] (by decide)⟩

end Dashboard
